import Mathlib

/-!
Shallow embedding of the portfolio analytics engine of `micro-invest`:
the snapshot builder, insight and metrics calculators (`calculations.ts`,
given here as `src/unnamed/part_006`) and the chart series transforms
(`src/utils/chartData.ts`).

Conventions of the embedding:
* JavaScript `number` values are modelled as exact rationals (`ℚ`).
  A division whose result is non-finite in JavaScript (`NaN`, `±Infinity`
  from a zero denominator) is modelled by `Option ℚ` with `none` for the
  non-finite outcome (`jsDiv`).
* The `-Infinity` / `+Infinity` sentinels that the insight and metrics
  code stores in accumulator records are first-class values there, so the
  growth fields use `JsNum`, rationals extended with the two infinities,
  with `JsNum.lt` mirroring the JavaScript `<` on those values.
* `Math.pow` with a fractional exponent is transcendental; the two
  metrics fields that need it (`monthlyGrowthRate` via `pow(_, 1/periods)`
  and `volatility` via `sqrt`) are embedded as real-valued functions,
  separately from the rational-valued metrics record.
* A JavaScript object used as a string-keyed map (`Record<string, number>`)
  is modelled as an insertion-ordered association list: assignment
  overwrites the value of an existing key in place and appends a fresh
  key at the end (`recordSet`), lookup takes the first match (`recordGet`).
* `Array.prototype.sort` with the `localeCompare` comparator on ISO date
  strings is a stable sort by lexicographic string order; it is modelled
  by `List.insertionSort`, which is stable for a total preorder, hence
  extensionally equal to the stable sort of the source.
* The `date-fns` formatting of date labels is kept abstract: the series
  transforms take the formatter as a function argument `fmtDate`.
-/

/-- `InvestmentEntry` from `src/types/index.ts`. -/
structure InvestmentEntry where
  date : String
  investment : String
  amount : ℚ
  rate : ℚ
deriving DecidableEq, Repr

/-- `PortfolioSnapshot` from `src/types/index.ts`. -/
structure PortfolioSnapshot where
  date : String
  entries : List InvestmentEntry
  totalValue : ℚ
  totalDebt : ℚ
  netWorth : ℚ
deriving DecidableEq, Repr

def defaultSnapshot : PortfolioSnapshot :=
  { date := "", entries := [], totalValue := 0, totalDebt := 0, netWorth := 0 }

/-- JavaScript division: `none` models the non-finite result (`NaN` or
`±Infinity`) produced by a zero denominator. -/
def jsDiv (a b : ℚ) : Option ℚ :=
  if b = 0 then none else some (a / b)

/-- A JavaScript number value that is either finite or one of the two
infinities (used for the `-Infinity` / `Infinity` accumulator sentinels). -/
inductive JsNum where
  | fin (q : ℚ)
  | posInf
  | negInf
deriving DecidableEq, Repr

/-- JavaScript `<` on the values of `JsNum` (no `NaN` arises there). -/
def JsNum.lt : JsNum → JsNum → Bool
  | JsNum.negInf, JsNum.negInf => false
  | JsNum.negInf, _ => true
  | _, JsNum.negInf => false
  | JsNum.posInf, _ => false
  | JsNum.fin _, JsNum.posInf => true
  | JsNum.fin a, JsNum.fin b => decide (a < b)

/-- Assignment `m[k] = v` on a JavaScript object: overwrite in place when
the key exists, append otherwise. -/
def recordSet {α : Type} (m : List (String × α)) (k : String) (v : α) :
    List (String × α) :=
  match m with
  | [] => [(k, v)]
  | (k', v') :: rest =>
      if k' = k then (k', v) :: rest else (k', v') :: recordSet rest k v

/-- Property lookup `m[k]` on a JavaScript object. -/
def recordGet {α : Type} (m : List (String × α)) (k : String) : Option α :=
  (m.find? (fun p => p.1 == k)).map (fun p => p.2)

/-- `[...snapshots].sort((a, b) => a.date.localeCompare(b.date))`: a stable
sort by lexicographic date order. -/
def sortByDate (snapshots : List PortfolioSnapshot) : List PortfolioSnapshot :=
  List.insertionSort (fun a b => a.date ≤ b.date) snapshots

/-! ## `calculateSnapshot` (part_006, lines 321-341) -/

def calculateSnapshot (entries : List InvestmentEntry) (date : String) :
    PortfolioSnapshot :=
  let dateEntries := entries.filter (fun e => e.date == date)
  let totalValue :=
    (dateEntries.filter (fun e => decide (0 < e.amount))).foldl
      (fun sum e => sum + e.amount) 0
  let totalDebt :=
    |(dateEntries.filter (fun e => decide (e.amount < 0))).foldl
      (fun sum e => sum + e.amount) 0|
  let netWorth := totalValue - totalDebt
  { date := date, entries := dateEntries, totalValue := totalValue,
    totalDebt := totalDebt, netWorth := netWorth }

/-! ## `calculateActualReturn` (part_006, lines 384-390) -/

/-- `!previousAmount || previousAmount === 0` is true exactly when the
previous amount is `undefined` or `0`. -/
def calculateActualReturn (currentAmount : ℚ) (previousAmount : Option ℚ) :
    Option ℚ :=
  match previousAmount with
  | none => none
  | some p => if p = 0 then none else some ((currentAmount - p) / |p| * 100)

/-! ## `calculateInsight` (part_006, lines 343-382) -/

structure Performer where
  name : String
  growth : JsNum
deriving DecidableEq, Repr

structure PortfolioInsight where
  topPerformer : Performer
  underperformer : Performer
  monthlyChange : Option ℚ
  allocation : List (String × Option ℚ)
deriving DecidableEq, Repr

/-- `previousSnapshot?.entries.find(e => e.investment === entry.investment)`
followed by `?.amount` (lines 351-352). -/
def previousAmountFor (previousSnapshot : Option PortfolioSnapshot)
    (entry : InvestmentEntry) : Option ℚ :=
  (previousSnapshot.bind
    (fun ps => ps.entries.find? (fun e => e.investment == entry.investment))).map
    (fun e => e.amount)

/-- One iteration of the top/underperformer loop of `calculateInsight`. -/
def insightStep (previousSnapshot : Option PortfolioSnapshot)
    (st : Performer × Performer) (entry : InvestmentEntry) :
    Performer × Performer :=
  match calculateActualReturn entry.amount (previousAmountFor previousSnapshot entry) with
  | none => st
  | some actualReturn =>
      let top := if JsNum.lt st.1.growth (JsNum.fin actualReturn)
        then { name := entry.investment, growth := JsNum.fin actualReturn }
        else st.1
      let under := if JsNum.lt (JsNum.fin actualReturn) st.2.growth
        then { name := entry.investment, growth := JsNum.fin actualReturn }
        else st.2
      (top, under)

def calculateInsight (snapshot : PortfolioSnapshot)
    (previousSnapshot : Option PortfolioSnapshot) : PortfolioInsight :=
  let positiveEntries := snapshot.entries.filter (fun e => decide (0 < e.amount))
  let perf := positiveEntries.foldl (insightStep previousSnapshot)
    ({ name := "", growth := JsNum.negInf }, { name := "", growth := JsNum.posInf })
  let monthlyChange := match previousSnapshot with
    | some prev =>
        (jsDiv (snapshot.netWorth - prev.netWorth) prev.netWorth).map
          (fun x => x * 100)
    | none => some 0
  let allocation := positiveEntries.foldl
    (fun m e => recordSet m e.investment
      ((jsDiv e.amount snapshot.totalValue).map (fun x => x * 100))) []
  { topPerformer := perf.1, underperformer := perf.2,
    monthlyChange := monthlyChange, allocation := allocation }

/-! ## `calculatePortfolioMetrics` (part_006, lines 123-208)

The record fields are split by value domain: the rational-valued fields
(`totalReturn`, `totalReturnPercentage`, `maxDrawdown`, `bestMonth`,
`worstMonth`) live in `PortfolioMetrics`, while `monthlyGrowthRate`,
`volatility` and `sharpeRatio`, whose source computations go through
`Math.pow(_, 1/periods)` and `Math.sqrt`, are embedded as the
real-valued functions `metricsMonthlyGrowthRate`, `metricsVolatility`
and `metricsSharpeRatio` of the same input. -/

/-- The per-iteration `monthlyReturn` of the metrics loop
(lines 156-158). -/
def periodReturn (prevSnapshot currentSnapshot : PortfolioSnapshot) : ℚ :=
  if prevSnapshot.netWorth = 0 then 0
  else (currentSnapshot.netWorth - prevSnapshot.netWorth) /
    |prevSnapshot.netWorth| * 100

structure MonthMark where
  date : String
  ret : JsNum
deriving DecidableEq, Repr

structure PortfolioMetrics where
  totalReturn : ℚ
  totalReturnPercentage : ℚ
  maxDrawdown : ℚ
  bestMonth : MonthMark
  worstMonth : MonthMark
deriving DecidableEq, Repr

/-- Consecutive (previous, current) snapshot pairs walked by the loops at
lines 152-168 and 177 (index `i` runs from 1, comparing to `i - 1`). -/
def consecutivePairs (sorted : List PortfolioSnapshot) :
    List (PortfolioSnapshot × PortfolioSnapshot) :=
  sorted.zip sorted.tail

/-- The `monthlyReturns` array accumulated by the loop. -/
def monthlyReturnsOf (sorted : List PortfolioSnapshot) : List ℚ :=
  (consecutivePairs sorted).map (fun pc => periodReturn pc.1 pc.2)

/-- One iteration of the best/worst month loop (lines 162-167). -/
def bestWorstStep (st : MonthMark × MonthMark)
    (pc : PortfolioSnapshot × PortfolioSnapshot) : MonthMark × MonthMark :=
  let monthlyReturn := periodReturn pc.1 pc.2
  (if JsNum.lt st.1.ret (JsNum.fin monthlyReturn)
     then { date := pc.2.date, ret := JsNum.fin monthlyReturn } else st.1,
   if JsNum.lt (JsNum.fin monthlyReturn) st.2.ret
     then { date := pc.2.date, ret := JsNum.fin monthlyReturn } else st.2)

/-- One iteration of the drawdown loop (lines 188-196); the state is
`(maxDrawdown, peak)`. -/
def drawdownStep (st : ℚ × ℚ) (snapshot : PortfolioSnapshot) : ℚ × ℚ :=
  let peak := if st.2 < snapshot.netWorth then snapshot.netWorth else st.2
  let drawdown := if peak = 0 then 0 else (peak - snapshot.netWorth) / peak * 100
  (if st.1 < drawdown then drawdown else st.1, peak)

def calculatePortfolioMetrics (snapshots : List PortfolioSnapshot) :
    PortfolioMetrics :=
  if snapshots.length < 2 then
    { totalReturn := 0, totalReturnPercentage := 0, maxDrawdown := 0,
      bestMonth := { date := "", ret := JsNum.fin 0 },
      worstMonth := { date := "", ret := JsNum.fin 0 } }
  else
    let sortedSnapshots := sortByDate snapshots
    let firstSnapshot := sortedSnapshots.headD defaultSnapshot
    let lastSnapshot := sortedSnapshots.getLastD defaultSnapshot
    let totalReturn := lastSnapshot.netWorth - firstSnapshot.netWorth
    let totalReturnPercentage := if firstSnapshot.netWorth = 0 then 0
      else totalReturn / |firstSnapshot.netWorth| * 100
    let bw := (consecutivePairs sortedSnapshots).foldl bestWorstStep
      ({ date := "", ret := JsNum.negInf }, { date := "", ret := JsNum.posInf })
    let dd := sortedSnapshots.foldl drawdownStep (0, firstSnapshot.netWorth)
    { totalReturn := totalReturn, totalReturnPercentage := totalReturnPercentage,
      maxDrawdown := dd.1, bestMonth := bw.1, worstMonth := bw.2 }

/-- `Math.pow(base, 1/periods)` on an already possibly non-finite base:
a non-finite base stays non-finite; with `periods = 1` the exponent is
exactly `1`; with `periods ≥ 2` the exponent is a non-integer in `(0,1)`,
so a negative base yields `NaN` and a nonnegative base the real root. -/
noncomputable def jsPowInv (base : Option ℚ) (periods : ℕ) : Option ℝ :=
  match base with
  | none => none
  | some b =>
      if periods = 1 then some (b : ℝ)
      else if b < 0 then none
      else some (Real.rpow (b : ℝ) (1 / (periods : ℝ)))

/-- The `monthlyGrowthRate` field of `calculatePortfolioMetrics`
(lines 170-174), with the length-guard of lines 124-135. -/
noncomputable def metricsMonthlyGrowthRate (snapshots : List PortfolioSnapshot) :
    Option ℝ :=
  if snapshots.length < 2 then some 0
  else
    let sortedSnapshots := sortByDate snapshots
    let firstSnapshot := sortedSnapshots.headD defaultSnapshot
    let lastSnapshot := sortedSnapshots.getLastD defaultSnapshot
    let periods := sortedSnapshots.length - 1
    if periods = 0 then some 0
    else (jsPowInv (jsDiv lastSnapshot.netWorth |firstSnapshot.netWorth|)
      periods).map (fun x => (x - 1) * 100)

/-- The `volatility` field of `calculatePortfolioMetrics` (lines 176-179),
with the length-guard of lines 124-135. -/
noncomputable def metricsVolatility (snapshots : List PortfolioSnapshot) : ℝ :=
  if snapshots.length < 2 then 0
  else
    let monthlyReturns := monthlyReturnsOf (sortByDate snapshots)
    let avgMonthlyReturn := monthlyReturns.sum / (monthlyReturns.length : ℚ)
    let variance :=
      ((monthlyReturns.map (fun r => (r - avgMonthlyReturn) ^ 2)).sum) /
        (monthlyReturns.length : ℚ)
    Real.sqrt (variance : ℝ)

/-- The `sharpeRatio` field of `calculatePortfolioMetrics` (line 182),
with the length-guard of lines 124-135. -/
noncomputable def metricsSharpeRatio (snapshots : List PortfolioSnapshot) : ℝ :=
  if snapshots.length < 2 then 0
  else
    let monthlyReturns := monthlyReturnsOf (sortByDate snapshots)
    let avgMonthlyReturn := monthlyReturns.sum / (monthlyReturns.length : ℚ)
    let volatility := metricsVolatility snapshots
    if volatility = 0 then 0 else (avgMonthlyReturn : ℝ) / volatility

/-! ## `transformSnapshots` and helpers (`src/utils/chartData.ts`) -/

inductive DataType where
  | returns
  | portfolio
  | allocation
deriving DecidableEq, Repr

inductive TimeView where
  | cumulative
  | period
deriving DecidableEq, Repr

inductive DisplayMode where
  | percentage
  | absolute
deriving DecidableEq, Repr

structure ChartDataPoint where
  date : String
  total : ℚ
  assets : List (String × ℚ)
deriving DecidableEq, Repr

def defaultPoint : ChartDataPoint := { date := "", total := 0, assets := [] }

/-- The per-asset entry value of the `returns` series (lines 62-71 for the
cumulative branch, 85-94 for the period branch): both branches share this
shape, differing only in the baseline snapshot supplying `baseEntry`. -/
def returnAssetValue (displayMode : DisplayMode) (entry : InvestmentEntry)
    (baseEntry : Option InvestmentEntry) : ℚ :=
  match baseEntry with
  | some be =>
      if 0 < be.amount then
        match displayMode with
        | DisplayMode.absolute => entry.amount - be.amount
        | DisplayMode.percentage => (entry.amount - be.amount) / be.amount * 100
      else
        match displayMode with
        | DisplayMode.absolute => entry.amount
        | DisplayMode.percentage => 0
  | none =>
      match displayMode with
      | DisplayMode.absolute => entry.amount
      | DisplayMode.percentage => 0

/-- The per-asset map of one `returns` point, relative to a baseline
snapshot (the first snapshot in the cumulative branch, the previous one in
the period branch). -/
def returnAssets (displayMode : DisplayMode) (snapshot base : PortfolioSnapshot) :
    List (String × ℚ) :=
  (snapshot.entries.filter (fun e => decide (0 < e.amount))).foldl
    (fun m entry => recordSet m entry.investment
      (returnAssetValue displayMode entry
        (base.entries.find? (fun e => e.investment == entry.investment)))) []

/-- The `total` of one `returns` point relative to a baseline snapshot
(lines 53-57 and 77-81). -/
def returnTotal (displayMode : DisplayMode) (snapshot base : PortfolioSnapshot) : ℚ :=
  match displayMode with
  | DisplayMode.absolute => snapshot.netWorth - base.netWorth
  | DisplayMode.percentage =>
      if base.netWorth = 0 then 0
      else (snapshot.netWorth - base.netWorth) / |base.netWorth| * 100

/-- The point built for index `index` by `calculateReturns` (lines 45-99). -/
def returnPoint (fmtDate : String → String) (snapshots : List PortfolioSnapshot)
    (timeView : TimeView) (displayMode : DisplayMode) (index : ℕ) :
    ChartDataPoint :=
  let snapshot := snapshots.getD index defaultSnapshot
  let firstSnapshot := snapshots.headD defaultSnapshot
  match timeView with
  | TimeView.cumulative =>
      { date := fmtDate snapshot.date,
        total := returnTotal displayMode snapshot firstSnapshot,
        assets := returnAssets displayMode snapshot firstSnapshot }
  | TimeView.period =>
      let prevSnapshot := if index = 0 then snapshot
        else snapshots.getD (index - 1) defaultSnapshot
      { date := fmtDate snapshot.date,
        total := returnTotal displayMode snapshot prevSnapshot,
        assets := returnAssets displayMode snapshot prevSnapshot }

def calculateReturns (fmtDate : String → String)
    (snapshots : List PortfolioSnapshot) (timeView : TimeView)
    (displayMode : DisplayMode) : List ChartDataPoint :=
  (List.range snapshots.length).map
    (returnPoint fmtDate snapshots timeView displayMode)

/-- The point built for index `index` by `calculatePortfolioValues`
(lines 101-136). -/
def portfolioPoint (fmtDate : String → String)
    (snapshots : List PortfolioSnapshot) (timeView : TimeView) (index : ℕ) :
    ChartDataPoint :=
  let snapshot := snapshots.getD index defaultSnapshot
  match timeView with
  | TimeView.cumulative =>
      { date := fmtDate snapshot.date,
        total := snapshot.netWorth,
        assets := (snapshot.entries.filter (fun e => decide (0 < e.amount))).foldl
          (fun m entry => recordSet m entry.investment entry.amount) [] }
  | TimeView.period =>
      let prevSnapshot := if index = 0 then snapshot
        else snapshots.getD (index - 1) defaultSnapshot
      { date := fmtDate snapshot.date,
        total := snapshot.netWorth - prevSnapshot.netWorth,
        assets := (snapshot.entries.filter (fun e => decide (0 < e.amount))).foldl
          (fun m entry =>
            let prevAmount := ((prevSnapshot.entries.find?
              (fun e => e.investment == entry.investment)).map
                (fun e => e.amount)).getD 0
            recordSet m entry.investment (entry.amount - prevAmount)) [] }

def calculatePortfolioValues (fmtDate : String → String)
    (snapshots : List PortfolioSnapshot) (timeView : TimeView) :
    List ChartDataPoint :=
  (List.range snapshots.length).map (portfolioPoint fmtDate snapshots timeView)

/-- `totalPositiveValue` of one snapshot in `calculateAllocation`
(chartData.ts line 144). -/
def positiveTotal (snapshot : PortfolioSnapshot) : ℚ :=
  (snapshot.entries.filter (fun e => decide (0 < e.amount))).foldl
    (fun sum e => sum + e.amount) 0

/-- The point built for one snapshot by `calculateAllocation`
(chartData.ts lines 138-164). -/
def allocationPoint (fmtDate : String → String) (snapshot : PortfolioSnapshot) :
    ChartDataPoint :=
  let positiveEntries := snapshot.entries.filter (fun e => decide (0 < e.amount))
  let totalPositiveValue := positiveTotal snapshot
  { date := fmtDate snapshot.date,
    total := 100,
    assets := positiveEntries.foldl
      (fun m entry => recordSet m entry.investment
        (if 0 < totalPositiveValue
          then entry.amount / totalPositiveValue * 100 else 0)) [] }

def calculateAllocation (fmtDate : String → String)
    (snapshots : List PortfolioSnapshot) : List ChartDataPoint :=
  snapshots.map (allocationPoint fmtDate)

def transformSnapshots (fmtDate : String → String)
    (snapshots : List PortfolioSnapshot) (dataType : DataType)
    (timeView : TimeView) (displayMode : DisplayMode) : List ChartDataPoint :=
  let sortedSnapshots := sortByDate snapshots
  if sortedSnapshots.length = 0 then []
  else
    match dataType with
    | DataType.returns => calculateReturns fmtDate sortedSnapshots timeView displayMode
    | DataType.portfolio => calculatePortfolioValues fmtDate sortedSnapshots timeView
    | DataType.allocation => calculateAllocation fmtDate sortedSnapshots

/-- `bestMonth` update of one loop iteration (lines 162-164), on a
(date, monthly return) pair. -/
def markBest (st : MonthMark) (p : String × ℚ) : MonthMark :=
  if JsNum.lt st.ret (JsNum.fin p.2) then { date := p.1, ret := JsNum.fin p.2 }
  else st

/-- `worstMonth` update of one loop iteration (lines 165-167), on a
(date, monthly return) pair. -/
def markWorst (st : MonthMark) (p : String × ℚ) : MonthMark :=
  if JsNum.lt (JsNum.fin p.2) st.ret then { date := p.1, ret := JsNum.fin p.2 }
  else st

/-- The (current date, monthly return) pairs that the best/worst month loop
walks, in ascending date order. -/
def returnMarks (sorted : List PortfolioSnapshot) : List (String × ℚ) :=
  (consecutivePairs sorted).map (fun pc => (pc.2.date, periodReturn pc.1 pc.2))

/-! ## Concrete inputs used by counterexamples and witnesses -/

def snapNegPrev : PortfolioSnapshot :=
  { date := "2024-01", entries := [], totalValue := 0, totalDebt := 100,
    netWorth := -100 }

def snapNegCur : PortfolioSnapshot :=
  { date := "2024-02", entries := [], totalValue := 0, totalDebt := 50,
    netWorth := -50 }

def snapEmpty : PortfolioSnapshot :=
  { date := "2024-02", entries := [], totalValue := 0, totalDebt := 0,
    netWorth := 0 }

def entryStocks : InvestmentEntry :=
  { date := "2024-02", investment := "Stocks", amount := 5, rate := 0 }

def snapOnePositive : PortfolioSnapshot :=
  { date := "2024-02", entries := [entryStocks], totalValue := 5,
    totalDebt := 0, netWorth := 5 }

def snapPrevZeroStocks : PortfolioSnapshot :=
  { date := "2024-01",
    entries := [{ date := "2024-01", investment := "Stocks", amount := 0,
                  rate := 0 }],
    totalValue := 0, totalDebt := 0, netWorth := 0 }

def initPerformers : Performer × Performer :=
  ({ name := "", growth := JsNum.negInf }, { name := "", growth := JsNum.posInf })

def entriesAlloc : List InvestmentEntry :=
  [{ date := "2024-01", investment := "A", amount := 60, rate := 0 },
   { date := "2024-01", investment := "B", amount := 40, rate := 0 },
   { date := "2024-01", investment := "Loan", amount := -20, rate := 0 }]

def snapNw (date : String) (nw : ℚ) : PortfolioSnapshot :=
  { date := date, entries := [], totalValue := nw, totalDebt := 0,
    netWorth := nw }

def exGrowthSeq : List PortfolioSnapshot :=
  [snapNw "2024-01" 1000, snapNw "2024-02" 1100, snapNw "2024-03" 1320]

def exNegFirstSeq : List PortfolioSnapshot :=
  [{ date := "2024-01", entries := [], totalValue := 0, totalDebt := 100,
     netWorth := -100 },
   snapNw "2024-02" 50]

def exTieSeq : List PortfolioSnapshot :=
  [snapNw "2024-01" 100, snapNw "2024-02" 110, snapNw "2024-03" 121]

def snapAllocChart : PortfolioSnapshot :=
  { date := "2024-01", entries := entriesAlloc, totalValue := 100,
    totalDebt := 20, netWorth := 80 }

def exTwoSeq : List PortfolioSnapshot :=
  [snapNw "2024-01" 1000, snapNw "2024-02" 1100]

def entriesLoanOnly : List InvestmentEntry :=
  [{ date := "2024-01", investment := "Loan", amount := -20, rate := 0 }]

/-! ## Helper lemmas -/

lemma foldl_add_eq_sum {α : Type} (f : α → ℚ) (l : List α) (a : ℚ) :
    l.foldl (fun sum e => sum + f e) a = a + (l.map f).sum := by
  induction l generalizing a with
  | nil => simp
  | cons x xs ih => simp [List.foldl_cons, ih, add_assoc]

lemma mem_recordSet {α : Type} {k : String} {v : α} {kv : String × α} :
    ∀ m : List (String × α), kv ∈ recordSet m k v → kv = (k, v) ∨ kv ∈ m := by
  intro m
  induction m with
  | nil => intro h; simpa [recordSet] using h
  | cons p rest ih =>
      obtain ⟨k', v'⟩ := p
      intro h
      by_cases hk : k' = k
      · subst hk
        simp only [recordSet, if_true, eq_self_iff_true, List.mem_cons] at h
        rcases h with h | h
        · exact Or.inl h
        · exact Or.inr (List.mem_cons_of_mem _ h)
      · simp only [recordSet, if_neg hk, List.mem_cons] at h
        rcases h with h | h
        · exact Or.inr (by simp [h])
        · rcases ih h with h' | h'
          · exact Or.inl h'
          · exact Or.inr (List.mem_cons_of_mem _ h')

lemma recordGet_recordSet_self {α : Type} (m : List (String × α)) (k : String)
    (v : α) : recordGet (recordSet m k v) k = some v := by
  induction m with
  | nil => simp [recordSet, recordGet]
  | cons p rest ih =>
      obtain ⟨k', v'⟩ := p
      by_cases hk : k' = k
      · subst hk
        simp [recordSet, recordGet]
      · simp only [recordSet, if_neg hk]
        have hne : ¬ (k' == k) := by simpa using hk
        simpa [recordGet, List.find?_cons, hne] using ih

lemma recordGet_recordSet_ne {α : Type} {k k' : String} (v : α)
    (h : k' ≠ k) : ∀ m : List (String × α),
    recordGet (recordSet m k v) k' = recordGet m k' := by
  intro m
  induction m with
  | nil => simp [recordSet, recordGet, Ne.symm h]
  | cons p rest ih =>
      obtain ⟨k₀, v₀⟩ := p
      by_cases hk : k₀ = k
      · subst hk
        have hne : ¬ (k₀ == k') := by
          simp only [beq_iff_eq]
          exact fun hh => h hh.symm
        simp [recordSet, recordGet, List.find?_cons, hne]
      · simp only [recordSet, if_neg hk]
        by_cases hk' : k₀ = k'
        · subst hk'
          simp [recordGet, List.find?_cons]
        · have hne : ¬ (k₀ == k') := by simpa using hk'
          simp only [recordGet, List.find?_cons, hne] at ih ⊢
          simpa [recordGet] using ih

/-- Membership description of the association lists built by the
`forEach`-style folds: every binding comes from some processed entry. -/
lemma mem_foldl_recordSet {α : Type} (g : InvestmentEntry → α)
    (l : List InvestmentEntry) (kv : String × α) :
    ∀ m₀ : List (String × α),
    kv ∈ l.foldl (fun m e => recordSet m e.investment (g e)) m₀ →
    (∃ e ∈ l, kv.1 = e.investment ∧ kv.2 = g e) ∨ kv ∈ m₀ := by
  induction l with
  | nil => intro m₀ h; exact Or.inr h
  | cons x xs ih =>
      intro m₀ h
      simp only [List.foldl_cons] at h
      rcases ih _ h with ⟨e, he, hkv⟩ | h'
      · exact Or.inl ⟨e, List.mem_cons_of_mem _ he, hkv⟩
      · rcases mem_recordSet _ h' with h'' | h''
        · exact Or.inl ⟨x, List.mem_cons_self x xs, by simp [h'']⟩
        · exact Or.inr h''

lemma recordGet_foldl_not_mem {α : Type} (g : InvestmentEntry → α)
    (l : List InvestmentEntry) (k : String)
    (h : ∀ e ∈ l, e.investment ≠ k) : ∀ m₀ : List (String × α),
    recordGet (l.foldl (fun m e => recordSet m e.investment (g e)) m₀) k =
      recordGet m₀ k := by
  induction l with
  | nil => intro m₀; rfl
  | cons x xs ih =>
      intro m₀
      simp only [List.foldl_cons]
      rw [ih (fun e he => h e (List.mem_cons_of_mem _ he)) _]
      exact recordGet_recordSet_ne _
        (fun hk => h x (List.mem_cons_self x xs) hk.symm) m₀

/-- With pairwise-distinct investment names, each processed entry's binding
survives to the final map. -/
lemma recordGet_foldl_of_nodup {α : Type} (g : InvestmentEntry → α)
    (l : List InvestmentEntry) (e : InvestmentEntry) :
    ∀ m₀ : List (String × α), e ∈ l →
    (l.map (fun x => x.investment)).Nodup →
    recordGet (l.foldl (fun m e => recordSet m e.investment (g e)) m₀)
      e.investment = some (g e) := by
  induction l with
  | nil => intro m₀ he; cases he
  | cons x xs ih =>
      intro m₀ he hnd
      simp only [List.map_cons, List.nodup_cons, List.mem_map] at hnd
      rcases List.mem_cons.1 he with rfl | he'
      · simp only [List.foldl_cons]
        rw [recordGet_foldl_not_mem]
        · exact recordGet_recordSet_self m₀ _ _
        · intro e' he'' hk
          exact hnd.1 ⟨e', he'', hk⟩
      · simp only [List.foldl_cons]
        exact ih _ he' hnd.2

/-- With pairwise-distinct investment names, `find?` on an entry's own
name returns the entry itself. -/
lemma find?_self_of_nodup (l : List InvestmentEntry) (e : InvestmentEntry) :
    e ∈ l → (l.map (fun x => x.investment)).Nodup →
    l.find? (fun x => x.investment == e.investment) = some e := by
  induction l with
  | nil => intro he; cases he
  | cons x xs ih =>
      intro he hnd
      simp only [List.map_cons, List.nodup_cons, List.mem_map] at hnd
      rcases List.mem_cons.1 he with rfl | he'
      · exact List.find?_cons_of_pos _ (by simp)
      · rw [List.find?_cons_of_neg]
        · exact ih he' hnd.2
        · simp only [beq_iff_eq]
          exact fun hk => hnd.1 ⟨e, he', hk.symm⟩

/-! ## Claim C4: `calculateSnapshot` totals and entry partition -/

/-- C4: for every entry list and target date, `calculateSnapshot` keeps
exactly the entries of that date, sums the strictly positive amounts into
`totalValue`, takes the absolute value of the sum of strictly negative
amounts as `totalDebt`, sets `netWorth = totalValue - totalDebt`, and an
empty date filter yields the all-zero snapshot with an empty entry list. -/
theorem calculateSnapshot_spec (entries : List InvestmentEntry) (date : String) :
    (calculateSnapshot entries date).entries =
      entries.filter (fun e => e.date == date) ∧
    (calculateSnapshot entries date).totalValue =
      (((entries.filter (fun e => e.date == date)).filter
        (fun e => decide (0 < e.amount))).map (fun e => e.amount)).sum ∧
    (calculateSnapshot entries date).totalDebt =
      |(((entries.filter (fun e => e.date == date)).filter
        (fun e => decide (e.amount < 0))).map (fun e => e.amount)).sum| ∧
    (calculateSnapshot entries date).netWorth =
      (calculateSnapshot entries date).totalValue -
        (calculateSnapshot entries date).totalDebt ∧
    (entries.filter (fun e => e.date == date) = [] →
      calculateSnapshot entries date =
        { date := date, entries := [], totalValue := 0, totalDebt := 0,
          netWorth := 0 }) := by
  refine ⟨rfl, ?_, ?_, rfl, ?_⟩
  · simp [calculateSnapshot, foldl_add_eq_sum]
  · simp [calculateSnapshot, foldl_add_eq_sum]
  · intro h
    simp [calculateSnapshot, h]

/-- C4 witness: the empty-filter conjunct at a concrete input. -/
theorem calculateSnapshot_spec_witness :
    calculateSnapshot [] "2024-01" =
      { date := "2024-01", entries := [], totalValue := 0, totalDebt := 0,
        netWorth := 0 } :=
  (calculateSnapshot_spec [] "2024-01").2.2.2.2 (by decide)

/-! ## Claim C1: the `monthlyChange` of `calculateInsight` -/

/-- C1 counterexample: with a negative previous net worth the code divides
by the signed `previousSnapshot.netWorth`, not its absolute value, so the
claimed formula `(current - previous) / |previous|` fails. -/
theorem calculateInsight_monthlyChange_counterexample :
    snapNegPrev.netWorth ≠ 0 ∧
    (calculateInsight snapNegCur (some snapNegPrev)).monthlyChange ≠
      some ((snapNegCur.netWorth - snapNegPrev.netWorth) /
        |snapNegPrev.netWorth| * 100) := by
  constructor
  · norm_num [snapNegPrev]
  · have h : (calculateInsight snapNegCur (some snapNegPrev)).monthlyChange =
        some ((snapNegCur.netWorth - snapNegPrev.netWorth) /
          snapNegPrev.netWorth * 100) := by
      simp [calculateInsight, jsDiv, snapNegPrev, snapNegCur]
    rw [h]
    simp only [snapNegPrev, snapNegCur, Ne, Option.some.injEq]
    norm_num

/-- C1 amended: `monthlyChange` is `(current.netWorth - previous.netWorth) /
previous.netWorth × 100` with the signed denominator, `0` when there is no
previous snapshot, and a non-finite value (division by zero, `none` in this
embedding) when the previous net worth is zero. -/
theorem calculateInsight_monthlyChange_eq (snapshot : PortfolioSnapshot)
    (previousSnapshot : Option PortfolioSnapshot) :
    (calculateInsight snapshot previousSnapshot).monthlyChange =
      match previousSnapshot with
      | none => some 0
      | some prev =>
          if prev.netWorth = 0 then none
          else some ((snapshot.netWorth - prev.netWorth) / prev.netWorth * 100) := by
  cases previousSnapshot with
  | none => rfl
  | some prev =>
      by_cases h : prev.netWorth = 0 <;>
        simp [calculateInsight, jsDiv, h]

/-! ## Claim C2: performers when no asset has a defined return -/

/-- C2 counterexample: when no positive entry has a defined actual return,
the initial sentinels survive, so the reported growths are `-Infinity` and
`+Infinity`, not `0` as claimed. -/
theorem insight_performers_counterexample :
    snapEmpty.entries = [] ∧
    ¬ ((calculateInsight snapEmpty none).topPerformer =
        { name := "", growth := JsNum.fin 0 } ∧
       (calculateInsight snapEmpty none).underperformer =
        { name := "", growth := JsNum.fin 0 }) := by
  decide

/-- C2 amended: when no positive-amount entry of the snapshot has a
defined actual return, `calculateInsight` returns the initial sentinels
unchanged: name empty with growth `-Infinity` for the top performer and
name empty with growth `+Infinity` for the underperformer. -/
theorem insight_performers_no_candidates (snapshot : PortfolioSnapshot)
    (previousSnapshot : Option PortfolioSnapshot)
    (h : ∀ e ∈ snapshot.entries, 0 < e.amount →
      calculateActualReturn e.amount (previousAmountFor previousSnapshot e) =
        none) :
    (calculateInsight snapshot previousSnapshot).topPerformer =
      { name := "", growth := JsNum.negInf } ∧
    (calculateInsight snapshot previousSnapshot).underperformer =
      { name := "", growth := JsNum.posInf } := by
  have key : ∀ (l : List InvestmentEntry),
      (∀ e ∈ l, calculateActualReturn e.amount
        (previousAmountFor previousSnapshot e) = none) →
      ∀ st : Performer × Performer,
        l.foldl (insightStep previousSnapshot) st = st := by
    intro l
    induction l with
    | nil => intro _ st; rfl
    | cons x xs ih =>
        intro hl st
        have hx := hl x (List.mem_cons_self x xs)
        simp only [List.foldl_cons, insightStep, hx]
        exact ih (fun e he => hl e (List.mem_cons_of_mem _ he)) st
  have hfold := key (snapshot.entries.filter (fun e => decide (0 < e.amount)))
    (fun e he => by
      rw [List.mem_filter] at he
      exact h e he.1 (by simpa using he.2))
    ({ name := "", growth := JsNum.negInf },
     { name := "", growth := JsNum.posInf })
  constructor <;> simp [calculateInsight, hfold]

/-- C2 amended witness: a snapshot with a positive entry but no previous
snapshot keeps the infinite sentinels. -/
theorem insight_performers_no_candidates_witness :
    (calculateInsight snapOnePositive none).topPerformer =
      { name := "", growth := JsNum.negInf } ∧
    (calculateInsight snapOnePositive none).underperformer =
      { name := "", growth := JsNum.posInf } :=
  insight_performers_no_candidates snapOnePositive none (by decide)

/-! ## Claim C9: metrics on sequences shorter than two snapshots -/

/-- C9: for every snapshot sequence of length 0 or 1, every numeric field
of the metrics is 0 (`monthlyGrowthRate`, `volatility` and `sharpeRatio`
included) and the best/worst months are the empty markers. -/
theorem calculatePortfolioMetrics_short (snapshots : List PortfolioSnapshot)
    (h : snapshots.length < 2) :
    calculatePortfolioMetrics snapshots =
      { totalReturn := 0, totalReturnPercentage := 0, maxDrawdown := 0,
        bestMonth := { date := "", ret := JsNum.fin 0 },
        worstMonth := { date := "", ret := JsNum.fin 0 } } ∧
    metricsMonthlyGrowthRate snapshots = some 0 ∧
    metricsVolatility snapshots = 0 ∧
    metricsSharpeRatio snapshots = 0 := by
  refine ⟨?_, ?_, ?_, ?_⟩ <;>
    simp [calculatePortfolioMetrics, metricsMonthlyGrowthRate,
      metricsVolatility, metricsSharpeRatio, h]

/-- C9 witness: the empty sequence. -/
theorem calculatePortfolioMetrics_short_witness :
    calculatePortfolioMetrics [] =
      { totalReturn := 0, totalReturnPercentage := 0, maxDrawdown := 0,
        bestMonth := { date := "", ret := JsNum.fin 0 },
        worstMonth := { date := "", ret := JsNum.fin 0 } } ∧
    metricsMonthlyGrowthRate [] = some 0 ∧
    metricsVolatility [] = 0 ∧
    metricsSharpeRatio [] = 0 :=
  calculatePortfolioMetrics_short [] (by decide)

/-! ## Claim C5: per-asset actual return and candidacy -/

/-- C5: a positive entry whose same-named previous entry is absent or had
zero amount gets the `null` sentinel and leaves the top/underperformer
state untouched; otherwise its actual return is
`(current - previous) / |previous| × 100` and the entry takes part in the
strict max/min selection of the insight loop. -/
theorem calculateActualReturn_spec (entry : InvestmentEntry)
    (previousSnapshot : Option PortfolioSnapshot) (st : Performer × Performer) :
    (previousAmountFor previousSnapshot entry = none ∨
        previousAmountFor previousSnapshot entry = some 0 →
      calculateActualReturn entry.amount
        (previousAmountFor previousSnapshot entry) = none ∧
      insightStep previousSnapshot st entry = st) ∧
    (∀ p : ℚ, previousAmountFor previousSnapshot entry = some p → p ≠ 0 →
      calculateActualReturn entry.amount
        (previousAmountFor previousSnapshot entry) =
        some ((entry.amount - p) / |p| * 100) ∧
      insightStep previousSnapshot st entry =
        (if JsNum.lt st.1.growth (JsNum.fin ((entry.amount - p) / |p| * 100))
           then { name := entry.investment,
                  growth := JsNum.fin ((entry.amount - p) / |p| * 100) }
           else st.1,
         if JsNum.lt (JsNum.fin ((entry.amount - p) / |p| * 100)) st.2.growth
           then { name := entry.investment,
                  growth := JsNum.fin ((entry.amount - p) / |p| * 100) }
           else st.2)) := by
  constructor
  · intro h
    have hr : calculateActualReturn entry.amount
        (previousAmountFor previousSnapshot entry) = none := by
      rcases h with h | h <;> rw [h] <;> simp [calculateActualReturn]
    exact ⟨hr, by simp [insightStep, hr]⟩
  · intro p hp hne
    have hr : calculateActualReturn entry.amount
        (previousAmountFor previousSnapshot entry) =
        some ((entry.amount - p) / |p| * 100) := by
      rw [hp]
      simp [calculateActualReturn, hne]
    exact ⟨hr, by simp [insightStep, hr]⟩

/-- C5 witness: a previous entry with amount zero yields the `null`
sentinel and an unchanged accumulator. -/
theorem calculateActualReturn_spec_witness :
    calculateActualReturn entryStocks.amount
      (previousAmountFor (some snapPrevZeroStocks) entryStocks) = none ∧
    insightStep (some snapPrevZeroStocks) initPerformers entryStocks =
      initPerformers :=
  (calculateActualReturn_spec entryStocks (some snapPrevZeroStocks)
    initPerformers).1 (Or.inr (by decide))

/-! ## Claim C10: allocation of a built snapshot is always finite -/

lemma calculateSnapshot_totalValue_pos (entries : List InvestmentEntry)
    (date : String) (e : InvestmentEntry)
    (he : e ∈ (calculateSnapshot entries date).entries)
    (hpos : 0 < e.amount) :
    0 < (calculateSnapshot entries date).totalValue := by
  have hval : (calculateSnapshot entries date).totalValue =
      (((entries.filter (fun x => x.date == date)).filter
        (fun x => decide (0 < x.amount))).map (fun x => x.amount)).sum := by
    simp [calculateSnapshot, foldl_add_eq_sum]
  have hmem : e ∈ (entries.filter (fun x => x.date == date)).filter
      (fun x => decide (0 < x.amount)) := by
    rw [List.mem_filter]
    exact ⟨he, by simpa using hpos⟩
  rw [hval]
  apply List.sum_pos
  · intro x hx
    rw [List.mem_map] at hx
    obtain ⟨e', he', rfl⟩ := hx
    rw [List.mem_filter] at he'
    simpa using he'.2
  · exact List.ne_nil_of_mem (List.mem_map_of_mem _ hmem)

/-- C10: on a snapshot produced by `calculateSnapshot`, every binding of
the insight allocation map is a finite value `amount / totalValue × 100`
for some positive entry (never the non-finite `none`: a built snapshot
with `totalValue = 0` has no positive entries, so its allocation map is
empty). -/
theorem insight_allocation_finite (entries : List InvestmentEntry)
    (date : String) (previousSnapshot : Option PortfolioSnapshot) :
    (∀ kv ∈ (calculateInsight (calculateSnapshot entries date)
        previousSnapshot).allocation,
      ∃ e ∈ (calculateSnapshot entries date).entries, 0 < e.amount ∧
        kv.1 = e.investment ∧
        kv.2 = some (e.amount /
          (calculateSnapshot entries date).totalValue * 100)) ∧
    ((calculateSnapshot entries date).totalValue = 0 →
      (calculateInsight (calculateSnapshot entries date)
        previousSnapshot).allocation = []) := by
  constructor
  · intro kv hkv
    simp only [calculateInsight] at hkv
    rcases mem_foldl_recordSet _ _ kv _ hkv with ⟨e, he, hk, hv⟩ | hfalse
    · rw [List.mem_filter] at he
      have hpos : 0 < e.amount := by simpa using he.2
      have hne : (calculateSnapshot entries date).totalValue ≠ 0 :=
        ne_of_gt (calculateSnapshot_totalValue_pos entries date e he.1 hpos)
      refine ⟨e, he.1, hpos, hk, ?_⟩
      rw [hv]
      simp [jsDiv, hne]
    · cases hfalse
  · intro h0
    have hempty : (calculateSnapshot entries date).entries.filter
        (fun e => decide (0 < e.amount)) = [] := by
      by_contra hne
      obtain ⟨e, he⟩ := List.exists_mem_of_ne_nil _ hne
      rw [List.mem_filter] at he
      have := calculateSnapshot_totalValue_pos entries date e he.1
        (by simpa using he.2)
      rw [h0] at this
      exact lt_irrefl 0 this
    simp [calculateInsight, hempty]

/-- C10 witness: a date whose only entry is a liability builds a snapshot
with `totalValue = 0`, and its allocation map is empty. -/
theorem insight_allocation_finite_witness :
    (calculateInsight (calculateSnapshot entriesLoanOnly "2024-01")
      none).allocation = [] :=
  (insight_allocation_finite entriesLoanOnly "2024-01" none).2 (by decide)

/-! ## Claim C7: the allocation series -/

/-- C7: the allocation series ignores `timeView` and `displayMode`; every
point totals exactly 100, carries only positive-amount entries in its
per-asset map, and (with distinct investment names) maps each positive
entry to `amount / totalPositiveAssets × 100`, 0 when the positive total
is 0. -/
theorem transformSnapshots_allocation_spec (fmtDate : String → String)
    (snapshots : List PortfolioSnapshot) (timeView timeView' : TimeView)
    (displayMode displayMode' : DisplayMode) (point : ChartDataPoint)
    (hpt : point ∈ transformSnapshots fmtDate snapshots DataType.allocation
      timeView displayMode) :
    transformSnapshots fmtDate snapshots DataType.allocation timeView
        displayMode =
      transformSnapshots fmtDate snapshots DataType.allocation timeView'
        displayMode' ∧
    point.total = 100 ∧
    ∃ snapshot ∈ sortByDate snapshots,
      point = allocationPoint fmtDate snapshot ∧
      (∀ kv ∈ point.assets, ∃ e ∈ snapshot.entries, 0 < e.amount ∧
        kv.1 = e.investment ∧
        kv.2 = (if 0 < positiveTotal snapshot
          then e.amount / positiveTotal snapshot * 100 else 0)) ∧
      ((snapshot.entries.map (fun x => x.investment)).Nodup →
        ∀ e ∈ snapshot.entries, 0 < e.amount →
          recordGet point.assets e.investment =
            some (if 0 < positiveTotal snapshot
              then e.amount / positiveTotal snapshot * 100 else 0)) := by
  refine ⟨rfl, ?_, ?_⟩
  all_goals
    rw [transformSnapshots] at hpt
    by_cases hlen : (sortByDate snapshots).length = 0
  · simp [hlen] at hpt
  · simp only [hlen, if_false, calculateAllocation] at hpt
    rw [List.mem_map] at hpt
    obtain ⟨snapshot, hs, rfl⟩ := hpt
    simp [allocationPoint]
  · simp [hlen] at hpt
  · simp only [hlen, if_false, calculateAllocation] at hpt
    rw [List.mem_map] at hpt
    obtain ⟨snapshot, hs, rfl⟩ := hpt
    refine ⟨snapshot, hs, rfl, ?_, ?_⟩
    · intro kv hkv
      simp only [allocationPoint] at hkv
      rcases mem_foldl_recordSet _ _ kv _ hkv with ⟨e, he, hk, hv⟩ | hfalse
      · rw [List.mem_filter] at he
        exact ⟨e, he.1, by simpa using he.2, hk, hv⟩
      · cases hfalse
    · intro hnd e he hpos
      have hmem : e ∈ snapshot.entries.filter (fun x => decide (0 < x.amount)) := by
        rw [List.mem_filter]
        exact ⟨he, by simpa using hpos⟩
      have hnd' : ((snapshot.entries.filter
          (fun x => decide (0 < x.amount))).map (fun x => x.investment)).Nodup :=
        List.Nodup.sublist (List.Sublist.map _ (List.filter_sublist _)) hnd
      simpa [allocationPoint] using
        recordGet_foldl_of_nodup _ _ e _ hmem hnd'

/-- C7 witness: the single-snapshot series at a concrete snapshot. -/
theorem transformSnapshots_allocation_spec_witness :
    (allocationPoint (fun s => s) snapAllocChart).total = 100 :=
  (transformSnapshots_allocation_spec (fun s => s) [snapAllocChart]
    TimeView.period TimeView.cumulative DisplayMode.absolute
    DisplayMode.percentage (allocationPoint (fun s => s) snapAllocChart)
    (by simp [transformSnapshots, sortByDate, calculateAllocation,
      List.insertionSort])).2.1

/-! ## Claim C6: period returns series -/

lemma getD_map_range {α : Type} (f : ℕ → α) (n i : ℕ) (h : i < n) (d : α) :
    ((List.range n).map f).getD i d = f i := by
  rw [List.getD_eq_getElem?_getD, List.getElem?_map, List.getElem?_range h]
  rfl

lemma transformSnapshots_returns_getD (fmtDate : String → String)
    (snapshots : List PortfolioSnapshot) (timeView : TimeView)
    (displayMode : DisplayMode) (i : ℕ)
    (hi : i < (sortByDate snapshots).length) (d : ChartDataPoint) :
    (transformSnapshots fmtDate snapshots DataType.returns timeView
      displayMode).getD i d =
      returnPoint fmtDate (sortByDate snapshots) timeView displayMode i := by
  have hlen : ¬ (sortByDate snapshots).length = 0 := by omega
  rw [transformSnapshots]
  simp only [hlen, if_false, calculateReturns]
  exact getD_map_range _ _ _ hi _

/-- Comparing a snapshot against itself gives zero change for every asset
in the per-asset map, in both display modes (given distinct names). -/
lemma returnAssets_self_zero (displayMode : DisplayMode)
    (s : PortfolioSnapshot)
    (hnd : (s.entries.map (fun x => x.investment)).Nodup) :
    ∀ kv ∈ returnAssets displayMode s s, kv.2 = 0 := by
  intro kv hkv
  simp only [returnAssets] at hkv
  rcases mem_foldl_recordSet _ _ kv _ hkv with ⟨e, he, hk, hv⟩ | hfalse
  · rw [List.mem_filter] at he
    have hfind : s.entries.find? (fun x => x.investment == e.investment) =
        some e := find?_self_of_nodup _ _ he.1 hnd
    have hpos : 0 < e.amount := by simpa using he.2
    rw [hv, hfind]
    cases displayMode <;> simp [returnAssetValue, hpos]
  · cases hfalse

/-- C6: in the period returns series, point `i > 0` totals the net-worth
change from snapshot `i - 1` (a percent of the absolute previous net worth
in percentage mode, the raw dollar delta in absolute mode), point `0`
compares snapshot `0` against itself and is all-zero, and the net-worth
sequence 1000, 1100, 1320 yields period totals 0, 10, 20 in percentage
mode. -/
theorem transformSnapshots_period_returns_spec (fmtDate : String → String)
    (snapshots : List PortfolioSnapshot) (displayMode : DisplayMode) (i : ℕ)
    (hi : i < (sortByDate snapshots).length) :
    (0 < i → displayMode = DisplayMode.absolute →
      ((transformSnapshots fmtDate snapshots DataType.returns TimeView.period
          displayMode).getD i defaultPoint).total =
        ((sortByDate snapshots).getD i defaultSnapshot).netWorth -
          ((sortByDate snapshots).getD (i - 1) defaultSnapshot).netWorth) ∧
    (0 < i → displayMode = DisplayMode.percentage →
      ((sortByDate snapshots).getD (i - 1) defaultSnapshot).netWorth ≠ 0 →
      ((transformSnapshots fmtDate snapshots DataType.returns TimeView.period
          displayMode).getD i defaultPoint).total =
        (((sortByDate snapshots).getD i defaultSnapshot).netWorth -
            ((sortByDate snapshots).getD (i - 1) defaultSnapshot).netWorth) /
          |((sortByDate snapshots).getD (i - 1) defaultSnapshot).netWorth| *
            100) ∧
    ((transformSnapshots fmtDate snapshots DataType.returns TimeView.period
        displayMode).getD 0 defaultPoint).total = 0 ∧
    ((((sortByDate snapshots).getD 0 defaultSnapshot).entries.map
        (fun x => x.investment)).Nodup →
      ∀ kv ∈ ((transformSnapshots fmtDate snapshots DataType.returns
          TimeView.period displayMode).getD 0 defaultPoint).assets,
        kv.2 = 0) ∧
    (transformSnapshots (fun s => s) exGrowthSeq DataType.returns
        TimeView.period DisplayMode.percentage).map (fun p => p.total) =
      [0, 10, 20] := by
  have hi0 : 0 < (sortByDate snapshots).length :=
    lt_of_le_of_lt (Nat.zero_le i) hi
  refine ⟨?_, ?_, ?_, ?_, ?_⟩
  · intro h0 hdm
    subst hdm
    rw [transformSnapshots_returns_getD _ _ _ _ _ hi]
    have hne : ¬ i = 0 := by omega
    simp [returnPoint, returnTotal, hne]
  · intro h0 hdm hprev
    subst hdm
    rw [transformSnapshots_returns_getD _ _ _ _ _ hi]
    have hne : ¬ i = 0 := by omega
    simp only [returnPoint, if_neg hne, returnTotal]
    rw [if_neg hprev]
  · rw [transformSnapshots_returns_getD _ _ _ _ _ hi0]
    cases displayMode <;> simp [returnPoint, returnTotal]
  · intro hnd kv hkv
    rw [transformSnapshots_returns_getD _ _ _ _ _ hi0] at hkv
    simp only [returnPoint] at hkv
    exact returnAssets_self_zero displayMode _ hnd kv hkv
  · have hs : sortByDate exGrowthSeq = exGrowthSeq := by
      rw [sortByDate]
      apply List.Sorted.insertionSort_eq
      simp [exGrowthSeq, snapNw, List.sorted_cons]
      decide
    have h1 : |(1000 : ℚ)| = 1000 := abs_of_pos (by norm_num)
    have h2 : |(1100 : ℚ)| = 1100 := abs_of_pos (by norm_num)
    simp only [transformSnapshots, hs]
    norm_num [calculateReturns, List.range_succ, returnPoint, returnTotal,
      exGrowthSeq, snapNw, h1, h2]

/-- C6 witness: the 1000/1100/1320 scenario totals. -/
theorem transformSnapshots_period_returns_spec_witness :
    (transformSnapshots (fun s => s) exGrowthSeq DataType.returns
        TimeView.period DisplayMode.percentage).map (fun p => p.total) =
      [0, 10, 20] :=
  (transformSnapshots_period_returns_spec (fun s => s) exGrowthSeq
    DisplayMode.percentage 1
    (by rw [sortByDate, List.length_insertionSort]; simp [exGrowthSeq])).2.2.2.2

/-! ## Claim C8: best and worst month selection -/

lemma JsNum_lt_negInf_fin (q : ℚ) :
    JsNum.lt JsNum.negInf (JsNum.fin q) = true := rfl

lemma JsNum_lt_fin_posInf (q : ℚ) :
    JsNum.lt (JsNum.fin q) JsNum.posInf = true := rfl

lemma JsNum_lt_fin_fin (a b : ℚ) :
    JsNum.lt (JsNum.fin a) (JsNum.fin b) = decide (a < b) := rfl

lemma bestWorstStep_split (st : MonthMark × MonthMark)
    (pc : PortfolioSnapshot × PortfolioSnapshot) :
    bestWorstStep st pc =
      (markBest st.1 (pc.2.date, periodReturn pc.1 pc.2),
       markWorst st.2 (pc.2.date, periodReturn pc.1 pc.2)) := rfl

lemma foldl_bestWorstStep (l : List (PortfolioSnapshot × PortfolioSnapshot)) :
    ∀ st : MonthMark × MonthMark,
    l.foldl bestWorstStep st =
      ((l.map (fun pc => (pc.2.date, periodReturn pc.1 pc.2))).foldl
         markBest st.1,
       (l.map (fun pc => (pc.2.date, periodReturn pc.1 pc.2))).foldl
         markWorst st.2) := by
  induction l with
  | nil => intro st; rfl
  | cons x xs ih =>
      intro st
      simp only [List.foldl_cons, List.map_cons, bestWorstStep_split]
      exact ih _

/-- The strict-comparison fold keeps the first occurrence of the maximum:
everything strictly before the recorded pair is strictly below it, and
nothing in the list exceeds it. -/
lemma foldl_markBest_first_max :
    ∀ L : List (String × ℚ), L ≠ [] →
    ∃ d r l₁ l₂, L.foldl markBest { date := "", ret := JsNum.negInf } =
        { date := d, ret := JsNum.fin r } ∧
      L = l₁ ++ (d, r) :: l₂ ∧ (∀ p ∈ l₁, p.2 < r) ∧ ∀ p ∈ L, p.2 ≤ r := by
  intro L
  induction L using List.reverseRecOn with
  | nil => intro h; exact absurd rfl h
  | append_singleton l p ih =>
      intro _
      rcases List.eq_nil_or_concat l with rfl | _
      · refine ⟨p.1, p.2, [], [], ?_, by simp, by simp, ?_⟩
        · simp [markBest, JsNum_lt_negInf_fin]
        · intro q hq
          simp at hq
          simp [hq]
      · have hl : l ≠ [] := by
          rintro rfl
          simp at *
        obtain ⟨d, r, l₁, l₂, hfold, hsplit, hpre, hmax⟩ := ih hl
        rw [List.foldl_append, hfold, List.foldl_cons, List.foldl_nil]
        by_cases hrp : r < p.2
        · refine ⟨p.1, p.2, l, [], ?_, by simp, ?_, ?_⟩
          · simp [markBest, JsNum_lt_fin_fin, hrp]
          · intro q hq
            exact lt_of_le_of_lt (hmax q hq) hrp
          · intro q hq
            rcases List.mem_append.1 hq with hq | hq
            · exact le_of_lt (lt_of_le_of_lt (hmax q hq) hrp)
            · simp at hq
              simp [hq]
        · refine ⟨d, r, l₁, l₂ ++ [p], ?_, ?_, hpre, ?_⟩
          · simp [markBest, JsNum_lt_fin_fin, hrp]
          · rw [hsplit]
            simp
          · intro q hq
            rcases List.mem_append.1 hq with hq | hq
            · exact hmax q hq
            · simp at hq
              subst hq
              exact not_lt.1 hrp

/-- Dual of `foldl_markBest_first_max` for the minimum. -/
lemma foldl_markWorst_first_min :
    ∀ L : List (String × ℚ), L ≠ [] →
    ∃ d r l₁ l₂, L.foldl markWorst { date := "", ret := JsNum.posInf } =
        { date := d, ret := JsNum.fin r } ∧
      L = l₁ ++ (d, r) :: l₂ ∧ (∀ p ∈ l₁, r < p.2) ∧ ∀ p ∈ L, r ≤ p.2 := by
  intro L
  induction L using List.reverseRecOn with
  | nil => intro h; exact absurd rfl h
  | append_singleton l p ih =>
      intro _
      rcases List.eq_nil_or_concat l with rfl | _
      · refine ⟨p.1, p.2, [], [], ?_, by simp, by simp, ?_⟩
        · simp [markWorst, JsNum_lt_fin_posInf]
        · intro q hq
          simp at hq
          simp [hq]
      · have hl : l ≠ [] := by
          rintro rfl
          simp at *
        obtain ⟨d, r, l₁, l₂, hfold, hsplit, hpre, hmin⟩ := ih hl
        rw [List.foldl_append, hfold, List.foldl_cons, List.foldl_nil]
        by_cases hrp : p.2 < r
        · refine ⟨p.1, p.2, l, [], ?_, by simp, ?_, ?_⟩
          · simp [markWorst, JsNum_lt_fin_fin, hrp]
          · intro q hq
            exact lt_of_lt_of_le hrp (hmin q hq)
          · intro q hq
            rcases List.mem_append.1 hq with hq | hq
            · exact le_of_lt (lt_of_lt_of_le hrp (hmin q hq))
            · simp at hq
              simp [hq]
        · refine ⟨d, r, l₁, l₂ ++ [p], ?_, ?_, hpre, ?_⟩
          · simp [markWorst, JsNum_lt_fin_fin, hrp]
          · rw [hsplit]
            simp
          · intro q hq
            rcases List.mem_append.1 hq with hq | hq
            · exact hmin q hq
            · simp at hq
              subst hq
              exact not_lt.1 hrp

/-- C8: for sequences of at least two snapshots, `bestMonth` records the
date and value of the maximum period-over-period return and `worstMonth`
the minimum; the strict comparisons keep the first occurrence in
chronological order, so everything strictly before the recorded period is
strictly worse (resp. better) and nothing beats the recorded value. -/
theorem calculatePortfolioMetrics_bestWorst (snapshots : List PortfolioSnapshot)
    (h2 : 2 ≤ snapshots.length) :
    (∃ d r l₁ l₂,
      (calculatePortfolioMetrics snapshots).bestMonth =
        { date := d, ret := JsNum.fin r } ∧
      returnMarks (sortByDate snapshots) = l₁ ++ (d, r) :: l₂ ∧
      (∀ p ∈ l₁, p.2 < r) ∧
      ∀ p ∈ returnMarks (sortByDate snapshots), p.2 ≤ r) ∧
    (∃ d r l₁ l₂,
      (calculatePortfolioMetrics snapshots).worstMonth =
        { date := d, ret := JsNum.fin r } ∧
      returnMarks (sortByDate snapshots) = l₁ ++ (d, r) :: l₂ ∧
      (∀ p ∈ l₁, r < p.2) ∧
      ∀ p ∈ returnMarks (sortByDate snapshots), r ≤ p.2) := by
  have hlen : ¬ snapshots.length < 2 := not_lt.2 h2
  have hsortlen : (sortByDate snapshots).length = snapshots.length := by
    rw [sortByDate, List.length_insertionSort]
  have hmarks : returnMarks (sortByDate snapshots) ≠ [] := by
    apply List.ne_nil_of_length_pos
    rw [returnMarks, List.length_map, consecutivePairs, List.length_zip,
      List.length_tail, hsortlen]
    omega
  have hbest : (calculatePortfolioMetrics snapshots).bestMonth =
      (returnMarks (sortByDate snapshots)).foldl markBest
        { date := "", ret := JsNum.negInf } := by
    rw [calculatePortfolioMetrics, if_neg hlen]
    show ((consecutivePairs (sortByDate snapshots)).foldl bestWorstStep
      ({ date := "", ret := JsNum.negInf },
       { date := "", ret := JsNum.posInf })).1 = _
    rw [foldl_bestWorstStep]
    rfl
  have hworst : (calculatePortfolioMetrics snapshots).worstMonth =
      (returnMarks (sortByDate snapshots)).foldl markWorst
        { date := "", ret := JsNum.posInf } := by
    rw [calculatePortfolioMetrics, if_neg hlen]
    show ((consecutivePairs (sortByDate snapshots)).foldl bestWorstStep
      ({ date := "", ret := JsNum.negInf },
       { date := "", ret := JsNum.posInf })).2 = _
    rw [foldl_bestWorstStep]
    rfl
  constructor
  · obtain ⟨d, r, l₁, l₂, hfold, hsplit, hpre, hmax⟩ :=
      foldl_markBest_first_max (returnMarks (sortByDate snapshots)) hmarks
    exact ⟨d, r, l₁, l₂, by rw [hbest, hfold], hsplit, hpre, hmax⟩
  · obtain ⟨d, r, l₁, l₂, hfold, hsplit, hpre, hmin⟩ :=
      foldl_markWorst_first_min (returnMarks (sortByDate snapshots)) hmarks
    exact ⟨d, r, l₁, l₂, by rw [hworst, hfold], hsplit, hpre, hmin⟩

/-- C8 witness: a sequence with tied period returns. -/
theorem calculatePortfolioMetrics_bestWorst_witness :
    ∃ d r l₁ l₂,
      (calculatePortfolioMetrics exTieSeq).bestMonth =
        { date := d, ret := JsNum.fin r } ∧
      returnMarks (sortByDate exTieSeq) = l₁ ++ (d, r) :: l₂ ∧
      (∀ p ∈ l₁, p.2 < r) ∧
      ∀ p ∈ returnMarks (sortByDate exTieSeq), p.2 ≤ r :=
  (calculatePortfolioMetrics_bestWorst exTieSeq (by decide)).1

/-! ## Claim C3: the compound monthly growth rate -/

/-- C3 counterexample: with a negative first net worth (-100 then 50,
one period) the code still applies the power formula and reports -50,
not the claimed 0 fallback. -/
theorem metricsMonthlyGrowthRate_counterexample :
    ((sortByDate exNegFirstSeq).headD defaultSnapshot).netWorth < 0 ∧
    metricsMonthlyGrowthRate exNegFirstSeq ≠ some 0 := by
  have hs : sortByDate exNegFirstSeq = exNegFirstSeq := by
    rw [sortByDate]
    apply List.Sorted.insertionSort_eq
    simp [exNegFirstSeq, snapNw, List.sorted_cons]
    decide
  have ha : |(-100 : ℚ)| = (100 : ℚ) := by
    rw [abs_of_neg (by norm_num : (-100 : ℚ) < 0)]
    norm_num
  constructor
  · rw [hs]
    norm_num [exNegFirstSeq]
  · simp only [metricsMonthlyGrowthRate, hs]
    norm_num [exNegFirstSeq, snapNw, jsDiv, jsPowInv, ha]

/-- C3 amended: with at least two snapshots the code always applies
`(pow(last.netWorth / |first.netWorth|, 1/periods) - 1) × 100` with
`periods = count - 1`: a zero first net worth makes the division non-finite
(`none`, no 0 fallback), a nonnegative base or a single period yields the
real power value, and a negative base with two or more periods is `NaN`
(`none`); zero or negative first net worth is never mapped to 0. -/
theorem metricsMonthlyGrowthRate_spec (snapshots : List PortfolioSnapshot)
    (h2 : 2 ≤ snapshots.length) :
    (((sortByDate snapshots).headD defaultSnapshot).netWorth = 0 →
      metricsMonthlyGrowthRate snapshots = none) ∧
    (∀ b : ℚ,
      jsDiv ((sortByDate snapshots).getLastD defaultSnapshot).netWorth
        |((sortByDate snapshots).headD defaultSnapshot).netWorth| = some b →
      (0 ≤ b ∨ snapshots.length - 1 = 1 →
        metricsMonthlyGrowthRate snapshots =
          some ((Real.rpow (b : ℝ) (1 / ((snapshots.length - 1 : ℕ) : ℝ)) - 1)
            * 100)) ∧
      (b < 0 → 2 ≤ snapshots.length - 1 →
        metricsMonthlyGrowthRate snapshots = none)) := by
  have hlen : ¬ snapshots.length < 2 := not_lt.2 h2
  have hsortlen : (sortByDate snapshots).length = snapshots.length := by
    rw [sortByDate, List.length_insertionSort]
  have hper : ¬ ((sortByDate snapshots).length - 1 = 0) := by omega
  have hunfold : metricsMonthlyGrowthRate snapshots =
      (jsPowInv (jsDiv
          ((sortByDate snapshots).getLastD defaultSnapshot).netWorth
          |((sortByDate snapshots).headD defaultSnapshot).netWorth|)
        ((sortByDate snapshots).length - 1)).map (fun x => (x - 1) * 100) := by
    simp only [metricsMonthlyGrowthRate, if_neg hlen, if_neg hper]
  refine ⟨?_, ?_⟩
  · intro h0
    have hdiv : jsDiv
        ((sortByDate snapshots).getLastD defaultSnapshot).netWorth
        |((sortByDate snapshots).headD defaultSnapshot).netWorth| = none := by
      simp only [jsDiv]
      rw [if_pos (abs_eq_zero.mpr h0)]
    rw [hunfold, hdiv]
    rfl
  · intro b hb
    constructor
    · intro hcase
      rw [hunfold, hb]
      by_cases hp1 : snapshots.length - 1 = 1
      · have hp1s : (sortByDate snapshots).length - 1 = 1 := by omega
        simp [jsPowInv, hp1s, hp1, Real.rpow_one]
      · have hnb : 0 ≤ b := hcase.resolve_right hp1
        have hp1s : ¬ (sortByDate snapshots).length - 1 = 1 := by omega
        have hne2 : ¬ snapshots.length = 2 := by omega
        simp [jsPowInv, hp1s, hne2, not_lt.2 hnb, hsortlen]
    · intro hbneg hp2
      rw [hunfold, hb]
      have hp1s : ¬ (sortByDate snapshots).length - 1 = 1 := by omega
      simp [jsPowInv, hp1s, hbneg]

/-- C3 amended witness: two snapshots with net worths 1000 and 1100. -/
theorem metricsMonthlyGrowthRate_spec_witness :
    metricsMonthlyGrowthRate exTwoSeq =
      some ((Real.rpow (((11 : ℚ) / 10 : ℚ) : ℝ)
        (1 / ((exTwoSeq.length - 1 : ℕ) : ℝ)) - 1) * 100) :=
  ((metricsMonthlyGrowthRate_spec exTwoSeq (by decide)).2 ((11 : ℚ) / 10)
    (by
      have hs : sortByDate exTwoSeq = exTwoSeq := by
        rw [sortByDate]
        apply List.Sorted.insertionSort_eq
        simp [exTwoSeq, snapNw, List.sorted_cons]
        decide
      rw [hs]
      have ha : |(1000 : ℚ)| = (1000 : ℚ) := abs_of_pos (by norm_num)
      norm_num [exTwoSeq, snapNw, jsDiv, ha])).1 (Or.inr (by decide))
